import Mathlib

/-!
Verification development for the `ds_impedance_controller` of `iiwa_ros_fri`.

The C++ source (`src/iiwa_control/src/ds_impedance_controller.cpp`) is shallowly
embedded over the rationals `ℚ`. External numerical routines that the source
calls out to (Eigen's SVD, `std::sqrt`, `std::acos`, and the passive
dynamical-system velocity-tracking primitive) are modelled as oracle
parameters, so every definition stays computable; all the structural facts
proved below hold for every choice of oracle.
-/

namespace IiwaControl

open Matrix

/-- Singular value decomposition data returned by the SVD oracle for an
`m × n` matrix: full `U` (`m × m`), the `min m n` singular values, and full
`V` (`n × n`).  Mirrors Eigen's `JacobiSVD` with `ComputeFullU | ComputeFullV`
as used in `pseudo_inverse`. -/
structure SVDData (m n : ℕ) where
  U : Matrix (Fin m) (Fin m) ℚ
  sv : Fin (min m n) → ℚ
  V : Matrix (Fin n) (Fin n) ℚ

/-- An SVD oracle: for every matrix it produces some SVD data.  It stands for
Eigen's `JacobiSVD` computation, which is external to the repository. -/
def SVDOracle : Type :=
  (m n : ℕ) → Matrix (Fin m) (Fin n) ℚ → SVDData m n

/-- Damping constant of `pseudo_inverse`: `lambda_ = damped ? 0.2 : 0.0`
(source line 12). -/
def dampingLambda (damped : Bool) : ℚ :=
  if damped then 1 / 5 else 0

/-- Divisor applied to each singular value in `pseudo_inverse`:
`sing_vals_(i)*sing_vals_(i) + lambda_*lambda_` (source line 20). -/
def svDivisor (s lam : ℚ) : ℚ :=
  s * s + lam * lam

/-- The matrix `S_` built by the loop of `pseudo_inverse` (source lines
16–20): the shape of the input matrix, zero everywhere except the diagonal
entries `i < min m n`, which hold `σᵢ / (σᵢ² + λ²)`. -/
def svdSdamped {m n : ℕ} (d : SVDData m n) (lam : ℚ) :
    Matrix (Fin m) (Fin n) ℚ :=
  fun i j =>
    if h : (i : ℕ) = (j : ℕ) then
      have hmin : (i : ℕ) < min m n := by
        have hj := j.isLt
        omega
      d.sv ⟨i, hmin⟩ / svDivisor (d.sv ⟨i, hmin⟩) lam
    else 0

/-- Embedding of `pseudo_inverse` (source lines 10–23): take the SVD of `M`
and return `V · S_ᵗ · Uᵗ`. -/
def pseudo_inverse (svdO : SVDOracle) {m n : ℕ}
    (M : Matrix (Fin m) (Fin n) ℚ) (damped : Bool) :
    Matrix (Fin n) (Fin m) ℚ :=
  let d := svdO m n M
  d.V * (svdSdamped d (dampingLambda damped))ᵀ * d.Uᵀ

/-- Full (undamped) diagonal singular-value matrix `Σ` of SVD data, shaped
like the decomposed matrix; used only to state `M = U·Σ·Vᵗ` hypotheses. -/
def svdSigma {m n : ℕ} (d : SVDData m n) : Matrix (Fin m) (Fin n) ℚ :=
  fun i j =>
    if h : (i : ℕ) = (j : ℕ) then
      have hmin : (i : ℕ) < min m n := by
        have hj := j.isLt
        omega
      d.sv ⟨i, hmin⟩
    else 0

/-- Damped diagonal matrix as the specification words it: the `n × m`
diagonal matrix whose `i`-th diagonal entry is `σᵢ / (σᵢ² + λ²)`. -/
def sigmaDampedSpec {m n : ℕ} (d : SVDData m n) (lam : ℚ) :
    Matrix (Fin n) (Fin m) ℚ :=
  fun i j =>
    if h : (i : ℕ) = (j : ℕ) then
      have hmin : (i : ℕ) < min m n := by
        have hi := i.isLt
        omega
      d.sv ⟨i, hmin⟩ / (d.sv ⟨i, hmin⟩ * d.sv ⟨i, hmin⟩ + lam * lam)
    else 0

/-- The four trace-like branch-selection quantities of
`rotationMatrixToQuaternion` (source lines 41–44):
`tr, tr1, tr2, tr3`. -/
def trQ (R : Matrix (Fin 3) (Fin 3) ℚ) : Fin 4 → ℚ :=
  ![R 0 0 + R 1 1 + R 2 2,
    R 0 0 - R 1 1 - R 2 2,
    -R 0 0 + R 1 1 - R 2 2,
    -R 0 0 - R 1 1 + R 2 2]

/-- Branch selected by the `if`/`else if` chain of
`rotationMatrixToQuaternion` (source lines 46–73): branch 0 when `tr > 0`,
else branch 1 when `tr1 > tr2 ∧ tr1 > tr3`, else branch 2 when
`tr2 > tr1 ∧ tr2 > tr3`, else branch 3. -/
def rmqBranch (R : Matrix (Fin 3) (Fin 3) ℚ) : Fin 4 :=
  if 0 < trQ R 0 then 0
  else if trQ R 1 > trQ R 2 ∧ trQ R 1 > trQ R 3 then 1
  else if trQ R 2 > trQ R 1 ∧ trQ R 2 > trQ R 3 then 2
  else 3

/-- Embedding of `rotationMatrixToQuaternion` (source lines 27–76), with the
square root passed as an oracle.  Each branch computes one component by a
square root and derives the other three from it. -/
def rotationMatrixToQuaternion (sqrt : ℚ → ℚ)
    (R : Matrix (Fin 3) (Fin 3) ℚ) : Fin 4 → ℚ :=
  let b := rmqBranch R
  if b = 0 then
    let q0 := sqrt (1 + trQ R 0) / 2
    ![q0, (R 2 1 - R 1 2) / (4 * q0), (R 0 2 - R 2 0) / (4 * q0),
      (R 1 0 - R 0 1) / (4 * q0)]
  else if b = 1 then
    let q1 := sqrt (1 + trQ R 1) / 2
    ![(R 2 1 - R 1 2) / (4 * q1), q1, (R 1 0 + R 0 1) / (4 * q1),
      (R 2 0 + R 0 2) / (4 * q1)]
  else if b = 2 then
    let q2 := sqrt (1 + trQ R 2) / 2
    ![(R 0 2 - R 2 0) / (4 * q2), (R 1 0 + R 0 1) / (4 * q2), q2,
      (R 2 1 + R 1 2) / (4 * q2)]
  else
    let q3 := sqrt (1 + trQ R 3) / 2
    ![(R 1 0 - R 0 1) / (4 * q3), (R 2 0 + R 0 2) / (4 * q3),
      (R 2 1 + R 1 2) / (4 * q3), q3]

/-- Embedding of `quaternionToRotationMatrix` (source lines 80–102):
closed-form expansion from scalar-first quaternion components. -/
def quaternionToRotationMatrix (q : Fin 4 → ℚ) :
    Matrix (Fin 3) (Fin 3) ℚ :=
  Matrix.of
    ![![q 0 * q 0 + q 1 * q 1 - q 2 * q 2 - q 3 * q 3,
        2 * (q 1 * q 2 - q 0 * q 3), 2 * (q 1 * q 3 + q 0 * q 2)],
      ![2 * (q 1 * q 2 + q 0 * q 3),
        q 0 * q 0 - q 1 * q 1 + q 2 * q 2 - q 3 * q 3,
        2 * (q 2 * q 3 - q 0 * q 1)],
      ![2 * (q 1 * q 3 - q 0 * q 2), 2 * (q 2 * q 3 + q 0 * q 1),
        q 0 * q 0 - q 1 * q 1 - q 2 * q 2 + q 3 * q 3]]

/-- Vector part `q.segment(1,3)` of a scalar-first quaternion. -/
def vecPart (q : Fin 4 → ℚ) : Fin 3 → ℚ :=
  fun i => q i.succ

/-- Embedding of `quaternionToAxisAngle` (source lines 106–119), with the
square root and arccosine passed as oracles.  Returns `(axis, angle)`:
`angle = 2·acos(q₀)`; `axis` is the normalized vector part unless the vector
part's norm is below `1e-3`, in which case the raw vector part is returned. -/
def quaternionToAxisAngle (sqrt acos : ℚ → ℚ) (q : Fin 4 → ℚ) :
    (Fin 3 → ℚ) × ℚ :=
  let vnorm := sqrt (q 1 * q 1 + q 2 * q 2 + q 3 * q 3)
  (if vnorm < 1 / 1000 then vecPart q
   else fun i => vecPart q i / vnorm,
   2 * acos (q 0))

/-- Explicit determinant of a 3×3 matrix (cofactor expansion), as Eigen's
fixed-size analytic `inverse()` computes it. -/
def det3 (R : Matrix (Fin 3) (Fin 3) ℚ) : ℚ :=
  R 0 0 * (R 1 1 * R 2 2 - R 1 2 * R 2 1)
    - R 0 1 * (R 1 0 * R 2 2 - R 1 2 * R 2 0)
    + R 0 2 * (R 1 0 * R 2 1 - R 1 1 * R 2 0)

/-- Explicit 3×3 matrix inverse (adjugate over determinant), modelling
Eigen's analytic fixed-size `R.inverse()` used at source line 289. -/
def inv3 (R : Matrix (Fin 3) (Fin 3) ℚ) : Matrix (Fin 3) (Fin 3) ℚ :=
  let d := det3 R
  Matrix.of
    ![![(R 1 1 * R 2 2 - R 1 2 * R 2 1) / d,
        (R 0 2 * R 2 1 - R 0 1 * R 2 2) / d,
        (R 0 1 * R 1 2 - R 0 2 * R 1 1) / d],
      ![(R 1 2 * R 2 0 - R 1 0 * R 2 2) / d,
        (R 0 0 * R 2 2 - R 0 2 * R 2 0) / d,
        (R 0 2 * R 1 0 - R 0 0 * R 1 2) / d],
      ![(R 1 0 * R 2 1 - R 1 1 * R 2 0) / d,
        (R 0 1 * R 2 0 - R 0 0 * R 2 1) / d,
        (R 0 0 * R 1 1 - R 0 1 * R 1 0) / d]]

/-- Mutable state of `DSImpedanceController` relevant to the embedded
behaviour: the five gain scalars, the nullspace switch, the eigenvalue
parameters last sent to the passive-DS primitive via `SetParams`, the
single-slot command buffer contents, and the `firstCommand_` latch. -/
structure CtrlState where
  rotationalStiffness : ℚ
  rotationalDamping : ℚ
  jointLimitsGain : ℚ
  desiredJointsGain : ℚ
  jointVelocitiesGain : ℚ
  useNullSpace : Bool
  eigvals : List ℚ
  buffer : List ℚ
  firstCommand : Bool
  deriving DecidableEq

/-- Controller state right after `init` (source lines 121–131 and 215): zero
gains, buffer pre-filled with ten zeros, `firstCommand_` unset, and the
passive-DS eigenvalues initialised to `[1, 1, 1]` (source lines 188–195). -/
def initState : CtrlState :=
  { rotationalStiffness := 0
    rotationalDamping := 0
    jointLimitsGain := 0
    desiredJointsGain := 0
    jointVelocitiesGain := 0
    useNullSpace := false
    eigvals := [1, 1, 1]
    buffer := List.replicate 10 0
    firstCommand := false }

/-- Embedding of `DSImpedanceController::commandCB` (source lines 341–353):
a message whose size differs from both `n_joints_` and 10 is rejected with a
diagnostic and no state change; otherwise the payload is written to the
command buffer and the `firstCommand_` latch is set. -/
def commandCB (nJoints : ℕ) (s : CtrlState) (msg : List ℚ) : CtrlState :=
  if msg.length ≠ nJoints ∧ msg.length ≠ 10 then s
  else { s with buffer := msg, firstCommand := true }

/-- Modelled from the spec: the generated configuration type
`iiwa_control::DSImpedance_paramConfig` is not under `src/`, so its fields
are reconstructed from the spec's tuning surface — six independently
settable quantities, five gain scalars plus the velocity-tracking
primitive's gain vector of 3 eigenvalues (`gain0`, `gain1`, `gain2`); the
scalar field names are the ones the callback in `src/` reads. -/
structure ParamConfig where
  gain0 : ℚ
  gain1 : ℚ
  gain2 : ℚ
  rotationalStiffness : ℚ
  rotationalDamping : ℚ
  useNullSpace : Bool
  jointLimitsGain : ℚ
  desiredJointsGain : ℚ
  jointVelocitiesGain : ℚ
  deriving DecidableEq

/-- Embedding of `DSImpedanceController::dynamicReconfigureCallback`
(source lines 368–381): pushes `gain0`, `gain1`, `gain1` as the passive-DS
eigenvalues and copies the five gain scalars and the nullspace switch. -/
def dynamicReconfigureCallback (c : ParamConfig) (s : CtrlState) :
    CtrlState :=
  { s with
    eigvals := [c.gain0, c.gain1, c.gain1]
    rotationalStiffness := c.rotationalStiffness
    rotationalDamping := c.rotationalDamping
    useNullSpace := c.useNullSpace
    jointLimitsGain := c.jointLimitsGain
    desiredJointsGain := c.desiredJointsGain
    jointVelocitiesGain := c.jointVelocitiesGain }

/-- Embedding of `DSImpedanceController::enforceJointLimits` (source lines
355–366): clamp a commanded torque to the joint's symmetric effort limit. -/
def enforceJointLimits (command limit : ℚ) : ℚ :=
  if command > limit then limit
  else if command < -limit then -limit
  else command

/-- Reference posture `j0_` set in the constructor (source lines 129–130). -/
def j0Default : Fin 7 → ℚ :=
  ![0, 3 / 4, 0, -33 / 20, 0, 19 / 25, 0]

/-- Intermediate quantities of one Active-state control cycle of
`DSImpedanceController::update`, exposed so that individual steps of the
cycle can be reasoned about. -/
structure UpdateTrace (n : ℕ) where
  omegaMeas : Fin 3 → ℚ
  vMeas : Fin 3 → ℚ
  vDes : Fin 3 → ℚ
  omegaDes : Fin 3 → ℚ
  qDes : Fin 4 → ℚ
  Flin : Fin 3 → ℚ
  axis : Fin 3 → ℚ
  angle : ℚ
  Frot : Fin 3 → ℚ
  wrench : Fin 6 → ℚ
  primaryTorques : Fin n → ℚ
  jacPinv : Matrix (Fin 6) (Fin n) ℚ
  nullProj : Matrix (Fin n) (Fin n) ℚ
  nullspaceTorques : Fin n → ℚ
  totalTorques : Fin n → ℚ
  commanded : Fin n → ℚ

/-- Embedding of the Active branch of `DSImpedanceController::update`
(source lines 227–332), step by step in source order.  The kinematics
provider's results (`perform_fk` orientation and the geometric Jacobian) and
sensor readings are inputs; the passive-DS primitive is the oracle
`passiveDS`, mapping the desired and measured linear velocities it was fed
to its output force (`GetOutput().desired_.force_`). -/
def updateTrace (n : ℕ) (sqrt acos : ℚ → ℚ) (svdO : SVDOracle)
    (passiveDS : (Fin 3 → ℚ) → (Fin 3 → ℚ) → (Fin 3 → ℚ))
    (fkQuat : Fin 4 → ℚ) (jac : Matrix (Fin 6) (Fin n) ℚ)
    (pos vel j0 effortLimit : Fin n → ℚ) (s : CtrlState) : UpdateTrace n :=
  let twist : Fin 6 → ℚ := jac.mulVec vel
  let omegaMeas : Fin 3 → ℚ := fun i => twist ⟨i.val, by omega⟩
  let vMeas : Fin 3 → ℚ := fun i => twist ⟨i.val + 3, by omega⟩
  let cmd : ℕ → ℚ := fun k => s.buffer.getD k 0
  let vDes : Fin 3 → ℚ := fun i => cmd i.val
  let omegaDes : Fin 3 → ℚ := fun i => cmd (i.val + 3)
  let qDes : Fin 4 → ℚ := fun i => cmd (i.val + 6)
  let Flin : Fin 3 → ℚ := passiveDS vDes vMeas
  let R := quaternionToRotationMatrix fkQuat
  let Rd := quaternionToRotationMatrix qDes
  let Re := Rd * inv3 R
  let qe := rotationMatrixToQuaternion sqrt Re
  let aa := quaternionToAxisAngle sqrt acos qe
  let angle := 2 * acos (qe 0)
  let Frot : Fin 3 → ℚ := fun i =>
    s.rotationalStiffness * angle * aa.1 i
      + s.rotationalDamping * (omegaDes i - omegaMeas i)
  let wrench : Fin 6 → ℚ := fun i =>
    if h : i.val < 3 then Frot ⟨i.val, h⟩
    else Flin ⟨i.val - 3, by omega⟩
  let primaryTorques : Fin n → ℚ := jacᵀ.mulVec wrench
  let jacPinv := pseudo_inverse svdO jacᵀ true
  let nullProj : Matrix (Fin n) (Fin n) ℚ := 1 - jacᵀ * jacPinv
  let nullspaceTorques : Fin n → ℚ := nullProj.mulVec (fun i =>
    -s.jointLimitsGain * pos i - s.desiredJointsGain * (pos i - j0 i)
      - s.jointVelocitiesGain * vel i)
  let totalTorques : Fin n → ℚ :=
    if s.useNullSpace then primaryTorques + nullspaceTorques
    else primaryTorques
  let commanded : Fin n → ℚ := fun i =>
    enforceJointLimits (totalTorques i) (effortLimit i)
  { omegaMeas := omegaMeas, vMeas := vMeas, vDes := vDes
    omegaDes := omegaDes, qDes := qDes, Flin := Flin
    axis := aa.1, angle := angle, Frot := Frot, wrench := wrench
    primaryTorques := primaryTorques, jacPinv := jacPinv
    nullProj := nullProj, nullspaceTorques := nullspaceTorques
    totalTorques := totalTorques, commanded := commanded }

/-- Embedding of `DSImpedanceController::update` (source lines 225–339):
when `firstCommand_` is unset, command zero torque to every joint; otherwise
run the Active cycle and issue its clamped torques. -/
def update (n : ℕ) (sqrt acos : ℚ → ℚ) (svdO : SVDOracle)
    (passiveDS : (Fin 3 → ℚ) → (Fin 3 → ℚ) → (Fin 3 → ℚ))
    (fkQuat : Fin 4 → ℚ) (jac : Matrix (Fin 6) (Fin n) ℚ)
    (pos vel j0 effortLimit : Fin n → ℚ) (s : CtrlState) : Fin n → ℚ :=
  if s.firstCommand then
    (updateTrace n sqrt acos svdO passiveDS fkQuat jac pos vel j0
      effortLimit s).commanded
  else fun _ => 0

/-- Angular part of the measured spatial twist: the first three components
of `Jacobian · jointVelocities`. -/
def twistAngular (n : ℕ) (jac : Matrix (Fin 6) (Fin n) ℚ)
    (vel : Fin n → ℚ) : Fin 3 → ℚ :=
  fun i => jac.mulVec vel ⟨i.val, by omega⟩

/-- Linear part of the measured spatial twist: the last three components of
`Jacobian · jointVelocities`. -/
def twistLinear (n : ℕ) (jac : Matrix (Fin 6) (Fin n) ℚ)
    (vel : Fin n → ℚ) : Fin 3 → ℚ :=
  fun i => jac.mulVec vel ⟨i.val + 3, by omega⟩

/-- Desired linear velocity: components 0–2 of the buffered command. -/
def cmdLinVel (buf : List ℚ) : Fin 3 → ℚ :=
  fun i => buf.getD i.val 0

/-- Desired angular velocity: components 3–5 of the buffered command. -/
def cmdAngVel (buf : List ℚ) : Fin 3 → ℚ :=
  fun i => buf.getD (i.val + 3) 0

/-- Desired orientation quaternion: components 6–9 of the buffered
command, scalar first. -/
def cmdQuat (buf : List ℚ) : Fin 4 → ℚ :=
  fun i => buf.getD (i.val + 6) 0

/-- Error rotation `Re = Rd · R⁻¹` taking the current orientation `q` to the
desired orientation `qd`. -/
def errorRotation (q qd : Fin 4 → ℚ) : Matrix (Fin 3) (Fin 3) ℚ :=
  quaternionToRotationMatrix qd * inv3 (quaternionToRotationMatrix q)

/-- Wrench assembled from a rotational component (first three entries) and a
linear component (last three entries). -/
def specWrench (rot lin : Fin 3 → ℚ) : Fin 6 → ℚ :=
  fun i =>
    if h : i.val < 3 then rot ⟨i.val, h⟩
    else lin ⟨i.val - 3, by omega⟩

end IiwaControl

namespace IiwaControl

open Matrix

/-- C7: for every joint torque `t` and non-negative effort limit, the
commanded value equals `+limit` when `t` exceeds the limit, `-limit` when
`t` is below the negative limit, and `t` itself otherwise. -/
theorem enforceJointLimits_clamps (t lim : ℚ) (hlim : 0 ≤ lim) :
    (lim < t → enforceJointLimits t lim = lim) ∧
    (t < -lim → enforceJointLimits t lim = -lim) ∧
    (-lim ≤ t → t ≤ lim → enforceJointLimits t lim = t) := by
  refine ⟨fun h => ?_, fun h => ?_, fun h1 h2 => ?_⟩
  · simp [enforceJointLimits, h]
  · have hno : ¬ lim < t := by linarith
    simp [enforceJointLimits, hno, h]
  · have hno : ¬ lim < t := not_lt.mpr h2
    have hno2 : ¬ t < -lim := not_lt.mpr h1
    simp [enforceJointLimits, hno, hno2]

/-- Witness for `enforceJointLimits_clamps` at torque 7 and limit 3. -/
theorem enforceJointLimits_clamps_witness :
    (0 : ℚ) ≤ 3 ∧ enforceJointLimits 7 3 = 3 :=
  ⟨by norm_num, (enforceJointLimits_clamps 7 3 (by norm_num)).1 (by norm_num)⟩

/-- C8: in the Idle state (`firstCommand_` unset) every control cycle
commands torque exactly 0 to every joint, for all sensor readings, Jacobian,
kinematics results and oracle behaviours — the Active-path computations do
not influence the output. -/
theorem update_idle_zero (n : ℕ) (sqrt acos : ℚ → ℚ) (svdO : SVDOracle)
    (passiveDS : (Fin 3 → ℚ) → (Fin 3 → ℚ) → (Fin 3 → ℚ))
    (fkQuat : Fin 4 → ℚ) (jac : Matrix (Fin 6) (Fin n) ℚ)
    (pos vel j0 effortLimit : Fin n → ℚ) (s : CtrlState)
    (h : s.firstCommand = false) :
    update n sqrt acos svdO passiveDS fkQuat jac pos vel j0 effortLimit s
      = fun _ => 0 := by
  simp [update, h]

/-- Oracle used to instantiate witness statements: SVD data with identity
factors and zero singular values. -/
def constSVDO : SVDOracle :=
  fun _ _ _ => ⟨1, fun _ => 0, 1⟩

/-- Witness for `update_idle_zero` on the freshly initialised controller. -/
theorem update_idle_zero_witness :
    initState.firstCommand = false ∧
      update 1 id id constSVDO (fun _ _ _ => 0) (fun _ => 0) 0
        (fun _ => 0) (fun _ => 0) (fun _ => 0) (fun _ => 0) initState
        = fun _ => 0 :=
  ⟨rfl, update_idle_zero 1 id id constSVDO (fun _ _ _ => 0) (fun _ => 0) 0
    (fun _ => 0) (fun _ => 0) (fun _ => 0) (fun _ => 0) initState rfl⟩

/-- C10: with damping enabled, every divisor `σᵢ² + λ²` used by
`pseudo_inverse` is at least `λ² = 0.04` and in particular nonzero, for any
singular value the SVD produces — including zero. -/
theorem svDivisor_damped_bounded (m n : ℕ) (d : SVDData m n)
    (i : Fin (min m n)) :
    1 / 25 ≤ svDivisor (d.sv i) (dampingLambda true) ∧
      svDivisor (d.sv i) (dampingLambda true) ≠ 0 := by
  have h : svDivisor (d.sv i) (dampingLambda true)
      = d.sv i * d.sv i + 1 / 25 := by
    norm_num [svDivisor, dampingLambda]
  constructor
  · rw [h]
    nlinarith [mul_self_nonneg (d.sv i)]
  · rw [h]
    nlinarith [mul_self_nonneg (d.sv i)]

/-- C1: the command callback also ACCEPTS a payload whose length equals
`n_joints_` (7 in the reference deployment): the buffer is overwritten with
the 7-element payload and the Idle→Active latch is set, although the
payload length is not 10. -/
theorem commandCB_accepts_njoints_payload :
    (List.replicate 7 (0 : ℚ)).length ≠ 10 ∧
      commandCB 7 initState (List.replicate 7 0)
        = { initState with buffer := List.replicate 7 0,
                           firstCommand := true } := by
  constructor
  · decide
  · rfl

/-- Configuration request showing that the third eigenvalue is not
forwarded. -/
def cfgC6 : ParamConfig :=
  { gain0 := 1, gain1 := 2, gain2 := 3
    rotationalStiffness := 0, rotationalDamping := 0
    useNullSpace := false, jointLimitsGain := 0
    desiredJointsGain := 0, jointVelocitiesGain := 0 }

/-- C6 counterexample: a reconfigure request with eigenvalues (1, 2, 3)
leaves the velocity-tracking primitive with eigenvalues (1, 2, 2) — not the
three configured eigenvalues. -/
theorem dynReconf_third_eigenvalue_not_forwarded :
    (dynamicReconfigureCallback cfgC6 initState).eigvals
      ≠ [cfgC6.gain0, cfgC6.gain1, cfgC6.gain2] := by
  decide

/-- C6 amended: each of the five gain scalars is forwarded unchanged, but
the velocity-tracking primitive receives `[gain0, gain1, gain1]` — the
second configured eigenvalue is duplicated and the third is ignored. -/
theorem dynReconf_forwarding (c : ParamConfig) (s : CtrlState) :
    (dynamicReconfigureCallback c s).rotationalStiffness
        = c.rotationalStiffness ∧
      (dynamicReconfigureCallback c s).rotationalDamping
        = c.rotationalDamping ∧
      (dynamicReconfigureCallback c s).jointLimitsGain = c.jointLimitsGain ∧
      (dynamicReconfigureCallback c s).desiredJointsGain
        = c.desiredJointsGain ∧
      (dynamicReconfigureCallback c s).jointVelocitiesGain
        = c.jointVelocitiesGain ∧
      (dynamicReconfigureCallback c s).useNullSpace = c.useNullSpace ∧
      (dynamicReconfigureCallback c s).eigvals = [c.gain0, c.gain1, c.gain1] :=
  ⟨rfl, rfl, rfl, rfl, rfl, rfl, rfl⟩

/-- C2: in every Active-state cycle the primary joint torque (before the
nullspace addition) equals `Jacobianᵗ · wrench`, where the wrench's first
three components are `stiffness·angle·axis + damping·(ωd − ω)` — with
`(axis, angle)` the axis-angle of the error rotation `Re = Rd·R⁻¹`, `ω` the
first three components of `Jacobian · jointVelocities` and `ωd` from the
command — and the last three components are the velocity-tracking
primitive's linear force output. -/
theorem update_primary_torque (n : ℕ) (sqrt acos : ℚ → ℚ)
    (svdO : SVDOracle)
    (passiveDS : (Fin 3 → ℚ) → (Fin 3 → ℚ) → (Fin 3 → ℚ))
    (fkQuat : Fin 4 → ℚ) (jac : Matrix (Fin 6) (Fin n) ℚ)
    (pos vel j0 effortLimit : Fin n → ℚ) (s : CtrlState) :
    (updateTrace n sqrt acos svdO passiveDS fkQuat jac pos vel j0
        effortLimit s).primaryTorques
      = jacᵀ.mulVec
          (specWrench
            (fun i =>
              s.rotationalStiffness
                  * (quaternionToAxisAngle sqrt acos
                      (rotationMatrixToQuaternion sqrt
                        (errorRotation fkQuat (cmdQuat s.buffer)))).2
                  * (quaternionToAxisAngle sqrt acos
                      (rotationMatrixToQuaternion sqrt
                        (errorRotation fkQuat (cmdQuat s.buffer)))).1 i
                + s.rotationalDamping
                  * (cmdAngVel s.buffer i - twistAngular n jac vel i))
            (passiveDS (cmdLinVel s.buffer) (twistLinear n jac vel))) :=
  rfl

/-- C3: in every Active-state cycle the secondary-objective torque equals
`N · (−jointLimitsGain·q − desiredPostureGain·(q − referencePosture)
− jointVelocityGain·q̇)` with `N = I − Jᵗ · pseudoInverse(Jᵗ)` (damped
pseudo-inverse of the transposed Jacobian), and the pre-clamp total torque
is primary + secondary when nullspace injection is enabled and the primary
torque alone otherwise. -/
theorem update_nullspace_total (n : ℕ) (sqrt acos : ℚ → ℚ)
    (svdO : SVDOracle)
    (passiveDS : (Fin 3 → ℚ) → (Fin 3 → ℚ) → (Fin 3 → ℚ))
    (fkQuat : Fin 4 → ℚ) (jac : Matrix (Fin 6) (Fin n) ℚ)
    (pos vel j0 effortLimit : Fin n → ℚ) (s : CtrlState) :
    (updateTrace n sqrt acos svdO passiveDS fkQuat jac pos vel j0
        effortLimit s).nullspaceTorques
      = ((1 : Matrix (Fin n) (Fin n) ℚ)
            - jacᵀ * pseudo_inverse svdO jacᵀ true).mulVec
          (fun i =>
            -s.jointLimitsGain * pos i
              - s.desiredJointsGain * (pos i - j0 i)
              - s.jointVelocitiesGain * vel i) ∧
    (updateTrace n sqrt acos svdO passiveDS fkQuat jac pos vel j0
        effortLimit s).totalTorques
      = (if s.useNullSpace then
          (updateTrace n sqrt acos svdO passiveDS fkQuat jac pos vel j0
            effortLimit s).primaryTorques
            + (updateTrace n sqrt acos svdO passiveDS fkQuat jac pos vel j0
                effortLimit s).nullspaceTorques
        else
          (updateTrace n sqrt acos svdO passiveDS fkQuat jac pos vel j0
            effortLimit s).primaryTorques) :=
  ⟨rfl, rfl⟩

/-- Rotation about the x-axis by `2·acos(3/5) ≈ 106.26°`: a rotation matrix
with `tr = 11/25 > 0` while `tr1 = 39/25 > tr`. -/
def rotX35 : Matrix (Fin 3) (Fin 3) ℚ :=
  !![1, 0, 0; 0, -7/25, -24/25; 0, 24/25, -7/25]

/-- C5 counterexample: `rotX35` is a rotation matrix (orthonormal with
determinant 1) on which `rotationMatrixToQuaternion` executes branch 0
(because `tr > 0`) although `tr1 > tr`, so the branch taken is NOT the one
with the largest trace-like quantity. -/
theorem rmqBranch_not_largest :
    rotX35ᵀ * rotX35 = 1 ∧ det3 rotX35 = 1 ∧
      rmqBranch rotX35 = 0 ∧ trQ rotX35 0 < trQ rotX35 1 := by
  refine ⟨?_, by norm_num [det3, rotX35], ?_, by norm_num [trQ, rotX35]⟩
  · ext i j
    fin_cases i <;> fin_cases j <;>
      simp [rotX35, Matrix.mul_apply, Fin.sum_univ_three, Matrix.one_apply,
        Matrix.transpose_apply, Matrix.vecHead, Matrix.vecTail] <;>
      norm_num
  · have h : 0 < trQ rotX35 0 := by norm_num [trQ, rotX35]
    unfold rmqBranch
    rw [if_pos h]

/-- C5 amended: branch 0 is executed exactly when `tr > 0` (it may not carry
the largest quantity there); when `tr ≤ 0` and the three alternative
quantities are pairwise distinct, the executed branch does carry the largest
of the four trace-like quantities. -/
theorem rmqBranch_amended (R : Matrix (Fin 3) (Fin 3) ℚ) :
    (0 < trQ R 0 → rmqBranch R = 0) ∧
      (trQ R 0 ≤ 0 → trQ R 1 ≠ trQ R 2 → trQ R 1 ≠ trQ R 3 →
        trQ R 2 ≠ trQ R 3 →
        trQ R 0 ≤ trQ R (rmqBranch R) ∧ trQ R 1 ≤ trQ R (rmqBranch R) ∧
          trQ R 2 ≤ trQ R (rmqBranch R) ∧ trQ R 3 ≤ trQ R (rmqBranch R)) := by
  have e0 : trQ R 0 = R 0 0 + R 1 1 + R 2 2 := rfl
  have e1 : trQ R 1 = R 0 0 - R 1 1 - R 2 2 := rfl
  have e2 : trQ R 2 = -R 0 0 + R 1 1 - R 2 2 := rfl
  have e3 : trQ R 3 = -R 0 0 - R 1 1 + R 2 2 := rfl
  have hsum : trQ R 0 + trQ R 1 + trQ R 2 + trQ R 3 = 0 := by
    rw [e0, e1, e2, e3]; ring
  constructor
  · intro h
    unfold rmqBranch
    rw [if_pos h]
  · intro h0 h12 h13 h23
    by_cases hb1 : trQ R 1 > trQ R 2 ∧ trQ R 1 > trQ R 3
    · have hbr : rmqBranch R = 1 := by
        unfold rmqBranch
        rw [if_neg (not_lt.mpr h0), if_pos hb1]
      rw [hbr]
      obtain ⟨ha, hb⟩ := hb1
      refine ⟨by linarith, le_refl _, by linarith, by linarith⟩
    · by_cases hb2 : trQ R 2 > trQ R 1 ∧ trQ R 2 > trQ R 3
      · have hbr : rmqBranch R = 2 := by
          unfold rmqBranch
          rw [if_neg (not_lt.mpr h0), if_neg hb1, if_pos hb2]
        rw [hbr]
        obtain ⟨ha, hb⟩ := hb2
        refine ⟨by linarith, by linarith, le_refl _, by linarith⟩
      · have hbr : rmqBranch R = 3 := by
          unfold rmqBranch
          rw [if_neg (not_lt.mpr h0), if_neg hb1, if_neg hb2]
        rw [hbr]
        have H1 : trQ R 1 < trQ R 2 ∨ trQ R 1 < trQ R 3 := by
          rcases not_and_or.mp hb1 with h | h
          · exact Or.inl (lt_of_le_of_ne (not_lt.mp h) h12)
          · exact Or.inr (lt_of_le_of_ne (not_lt.mp h) h13)
        have H2 : trQ R 2 < trQ R 1 ∨ trQ R 2 < trQ R 3 := by
          rcases not_and_or.mp hb2 with h | h
          · exact Or.inl (lt_of_le_of_ne (not_lt.mp h) (Ne.symm h12))
          · exact Or.inr (lt_of_le_of_ne (not_lt.mp h) h23)
        have h1lt : trQ R 1 < trQ R 3 ∧ trQ R 2 < trQ R 3 := by
          rcases H1 with h1 | h1 <;> rcases H2 with h2 | h2
          · exact absurd h1 (not_lt.mpr (le_of_lt h2))
          · exact ⟨by linarith, h2⟩
          · exact ⟨h1, by linarith⟩
          · exact ⟨h1, h2⟩
        obtain ⟨ha, hb⟩ := h1lt
        refine ⟨by linarith, by linarith, by linarith, le_refl _⟩

/-- Diagonal test matrix with `tr = -6 ≤ 0` and pairwise distinct
alternative quantities `(4, 2, 0)`. -/
def diagNeg123 : Matrix (Fin 3) (Fin 3) ℚ :=
  !![-1, 0, 0; 0, -2, 0; 0, 0, -3]

/-- Witness for `rmqBranch_amended`: both conjuncts applied at concrete
matrices with all hypotheses discharged. -/
theorem rmqBranch_amended_witness :
    rmqBranch rotX35 = 0 ∧
      (trQ diagNeg123 0 ≤ trQ diagNeg123 (rmqBranch diagNeg123) ∧
        trQ diagNeg123 1 ≤ trQ diagNeg123 (rmqBranch diagNeg123) ∧
        trQ diagNeg123 2 ≤ trQ diagNeg123 (rmqBranch diagNeg123) ∧
        trQ diagNeg123 3 ≤ trQ diagNeg123 (rmqBranch diagNeg123)) :=
  ⟨(rmqBranch_amended rotX35).1 (by norm_num [trQ, rotX35]),
    (rmqBranch_amended diagNeg123).2 (by norm_num [trQ, diagNeg123])
      (by norm_num [trQ, diagNeg123]) (by norm_num [trQ, diagNeg123])
      (by norm_num [trQ, diagNeg123])⟩

/-- C4: for every matrix `M` whose SVD data satisfy `M = U·Σ·Vᵗ`,
`pseudo_inverse` returns `V·Σ_damped·Uᵗ`, where `Σ_damped` is the diagonal
matrix whose `i`-th entry is `σᵢ/(σᵢ² + λ²)` and `λ` is `0.2` when damped
and `0` otherwise. -/
theorem pseudo_inverse_svd_form (svdO : SVDOracle) (m n : ℕ)
    (M : Matrix (Fin m) (Fin n) ℚ) (damped : Bool)
    (hM : M = (svdO m n M).U * svdSigma (svdO m n M) * (svdO m n M).Vᵀ) :
    pseudo_inverse svdO M damped
      = (svdO m n M).V
          * sigmaDampedSpec (svdO m n M) (dampingLambda damped)
          * (svdO m n M).Uᵀ := by
  have key : ∀ (d : SVDData m n) (lam : ℚ),
      (svdSdamped d lam)ᵀ = sigmaDampedSpec d lam := by
    intro d lam
    ext i j
    rw [Matrix.transpose_apply]
    by_cases h : (i : ℕ) = (j : ℕ)
    · have hij : (j : ℕ) = (i : ℕ) := h.symm
      simp only [svdSdamped, sigmaDampedSpec, dif_pos hij, dif_pos h]
      have hfin : ∀ (p : (j : ℕ) < min m n) (p2 : (i : ℕ) < min m n),
          d.sv ⟨(j : ℕ), p⟩ = d.sv ⟨(i : ℕ), p2⟩ :=
        fun p p2 => congrArg d.sv (Fin.ext hij)
      rw [hfin]
      rfl
    · simp only [svdSdamped, sigmaDampedSpec,
        dif_neg (fun hc => h (Eq.symm hc)), dif_neg h]
  show (svdO m n M).V * (svdSdamped (svdO m n M) (dampingLambda damped))ᵀ
        * (svdO m n M).Uᵀ
      = (svdO m n M).V * sigmaDampedSpec (svdO m n M) (dampingLambda damped)
        * (svdO m n M).Uᵀ
  rw [key]

/-- SVD oracle producing identity factors and the constant singular value 2,
used to witness the pseudo-inverse theorem on the 1×1 matrix `[2]`. -/
def constSVDO2 : SVDOracle :=
  fun _ _ _ => ⟨1, fun _ => 2, 1⟩

/-- Witness for `pseudo_inverse_svd_form` on the 1×1 matrix `[2]`, whose
oracle data form a genuine SVD. -/
theorem pseudo_inverse_svd_form_witness :
    ((!![(2 : ℚ)] : Matrix (Fin 1) (Fin 1) ℚ)
        = (constSVDO2 1 1 !![(2 : ℚ)]).U * svdSigma (constSVDO2 1 1 !![(2 : ℚ)])
            * (constSVDO2 1 1 !![(2 : ℚ)]).Vᵀ) ∧
      pseudo_inverse constSVDO2 !![(2 : ℚ)] true
        = (constSVDO2 1 1 !![(2 : ℚ)]).V
            * sigmaDampedSpec (constSVDO2 1 1 !![(2 : ℚ)]) (dampingLambda true)
            * (constSVDO2 1 1 !![(2 : ℚ)]).Uᵀ := by
  have h : (!![(2 : ℚ)] : Matrix (Fin 1) (Fin 1) ℚ)
      = (constSVDO2 1 1 !![(2 : ℚ)]).U * svdSigma (constSVDO2 1 1 !![(2 : ℚ)])
          * (constSVDO2 1 1 !![(2 : ℚ)]).Vᵀ := by
    ext i j
    fin_cases i
    fin_cases j
    simp [constSVDO2, svdSigma, Matrix.mul_apply, Fin.sum_univ_one]
  exact ⟨h, pseudo_inverse_svd_form constSVDO2 1 1 !![(2 : ℚ)] true h⟩

/-- C9: `quaternionToAxisAngle` returns `angle = 2·acos(q₀)` always; the
axis is the vector part divided by its norm when the norm is at least
`1e-3`, and the raw vector part when the norm is below `1e-3`; at
`q = (1,0,0,0)` (given `sqrt 0 = 0` and `acos 1 = 0`) it returns angle 0 and
the zero axis, with no division by zero. -/
theorem quaternionToAxisAngle_spec (sqrt acos : ℚ → ℚ) (q : Fin 4 → ℚ)
    (hs0 : sqrt 0 = 0) (ha1 : acos 1 = 0) :
    (quaternionToAxisAngle sqrt acos q).2 = 2 * acos (q 0) ∧
      (sqrt (q 1 * q 1 + q 2 * q 2 + q 3 * q 3) < 1 / 1000 →
        (quaternionToAxisAngle sqrt acos q).1 = vecPart q) ∧
      (1 / 1000 ≤ sqrt (q 1 * q 1 + q 2 * q 2 + q 3 * q 3) →
        (quaternionToAxisAngle sqrt acos q).1
          = fun i => vecPart q i
              / sqrt (q 1 * q 1 + q 2 * q 2 + q 3 * q 3)) ∧
      quaternionToAxisAngle sqrt acos ![1, 0, 0, 0] = (fun _ => 0, 0) := by
  have haxis : ∀ p : Fin 4 → ℚ, (quaternionToAxisAngle sqrt acos p).1
      = if sqrt (p 1 * p 1 + p 2 * p 2 + p 3 * p 3) < 1 / 1000 then vecPart p
        else fun i => vecPart p i
            / sqrt (p 1 * p 1 + p 2 * p 2 + p 3 * p 3) :=
    fun _ => rfl
  refine ⟨rfl, fun h => ?_, fun h => ?_, ?_⟩
  · rw [haxis, if_pos h]
  · rw [haxis, if_neg (not_lt.mpr h)]
  · have hz : (![1, 0, 0, 0] : Fin 4 → ℚ) 1 * (![1, 0, 0, 0] : Fin 4 → ℚ) 1
        + (![1, 0, 0, 0] : Fin 4 → ℚ) 2 * (![1, 0, 0, 0] : Fin 4 → ℚ) 2
        + (![1, 0, 0, 0] : Fin 4 → ℚ) 3 * (![1, 0, 0, 0] : Fin 4 → ℚ) 3
        = 0 := by norm_num
    have hax : (quaternionToAxisAngle sqrt acos ![1, 0, 0, 0]).1
        = fun _ => 0 := by
      rw [haxis, hz, hs0, if_pos (by norm_num : (0 : ℚ) < 1 / 1000)]
      funext i
      fin_cases i <;> rfl
    have hang : (quaternionToAxisAngle sqrt acos ![1, 0, 0, 0]).2 = 0 := by
      show 2 * acos ((![1, 0, 0, 0] : Fin 4 → ℚ) 0) = 0
      rw [show (![1, 0, 0, 0] : Fin 4 → ℚ) 0 = 1 from rfl, ha1]
      ring
    exact Prod.ext hax hang

/-- Witness for `quaternionToAxisAngle_spec` with `sqrt = id` and a constant
zero arccosine at the identity quaternion. -/
theorem quaternionToAxisAngle_spec_witness :
    id (0 : ℚ) = 0 ∧ (fun _ : ℚ => (0 : ℚ)) 1 = 0 ∧
      quaternionToAxisAngle id (fun _ => 0) ![1, 0, 0, 0]
        = (fun _ => 0, 0) :=
  ⟨rfl, rfl,
    (quaternionToAxisAngle_spec id (fun _ => 0) ![1, 0, 0, 0] rfl rfl).2.2.2⟩

end IiwaControl
